import Mathlib

/-!
Verification of `src/main.py` (generate-srt): a shallow embedding of the
program's pure logic — SRT timestamp formatting, segment-to-SRT rendering,
the whisper-result normalization, and the control flow of `main` — together
with theorems settling the specification's claims.

Python values that flow through the program (dicts, lists, numbers,
strings) are modelled by the inductive type `PyVal`; numeric values are
modelled exactly by `ℚ` (the spec describes the timestamp algorithm over
real seconds). Fallible Python operations (`seg["start"]`, `.strip()` on a
non-string, ...) return `Except PyErr`.
-/

/-- Python exceptions that the modelled code can raise. -/
inductive PyErr where
  | keyError : String → PyErr
  | typeError : PyErr
  | attributeError : PyErr
  deriving DecidableEq, Repr

deriving instance DecidableEq for Except

/-- A model of the Python values flowing through this program: numbers
(ints and floats, the latter idealized as exact rationals), strings,
`None`, lists, and string-keyed dicts (as association lists). -/
inductive PyVal where
  | none : PyVal
  | int : ℤ → PyVal
  | float : ℚ → PyVal
  | str : String → PyVal
  | list : List PyVal → PyVal
  | dict : List (String × PyVal) → PyVal

/-- Lookup in a dict modelled as an association list (Python dict keys are
unique, so first-match lookup is faithful). -/
def alistGet? : List (String × PyVal) → String → Option PyVal
  | [], _ => Option.none
  | (k, v) :: rest, key => if k = key then Option.some v else alistGet? rest key

/-- The ASCII whitespace characters stripped by Python's `str.strip()`
(and skipped by `float()`); the claims only involve ASCII text. -/
def isPySpace (c : Char) : Bool :=
  c = ' ' ∨ c = '\t' ∨ c = '\n' ∨ c = '\r' ∨ c = '\x0b' ∨ c = '\x0c'

/-- Python `str.strip()`: remove leading and trailing whitespace. -/
def pyStrip (s : String) : String :=
  String.mk (((s.toList.dropWhile isPySpace).reverse.dropWhile isPySpace).reverse)

/-- Round `n / d` (with `d > 0`) to the nearest integer, ties to even —
the rounding of Python's builtin `round()`. Stated on the numerator and
denominator with integer arithmetic only, so that concrete instances
evaluate inside the kernel: the fractional part `n/d - f` is compared with
`1/2` by comparing `2 * (n - f * d)` with `d`. -/
def roundHalfEven (n : ℤ) (d : ℤ) : ℤ :=
  let f := Int.fdiv n d
  let r2 := 2 * (n - f * d)
  if r2 < d then f
  else if d < r2 then f + 1
  else if Int.emod f 2 = 0 then f else f + 1

/-- Python's `int(round(seconds * 1000))` (main.py line 35) on the exact
rational: `seconds * 1000 = (1000 * num) / den`, rounded half to even.
`roundHalfEven` only depends on the value `n / d`, so the unreduced pair
`(1000 * num, den)` yields `round(seconds * 1000)`. -/
def pyRound1000 (q : ℚ) : ℤ := roundHalfEven (1000 * q.num) (q.den : ℤ)

/-- Zero-pad the decimal representation of `n : ℕ` to width `w`
(Python `f"{n:0wd}"` for non-negative `n`). -/
def padNat (n : ℕ) (w : ℕ) : String :=
  let s := toString n
  String.mk (List.replicate (w - s.length) '0') ++ s

/-- Python `f"{n:0wd}"` for an integer `n`: the sign, when present,
counts towards the width and precedes the zero padding. -/
def zeroPad (n : ℤ) (w : ℕ) : String :=
  if n < 0 then "-" ++ padNat n.natAbs (w - 1) else padNat n.toNat w

/-- Lines 36–42 of `format_timestamp`: split the rounded total
milliseconds into hours, minutes, seconds and milliseconds with Python
floor division (`//`, here `Int.fdiv`) and the source's running
subtractions, and format the four fields. -/
def tsFromMillis (millis : ℤ) : String :=
  let hours := Int.fdiv millis (3600 * 1000)
  let millis1 := millis - hours * (3600 * 1000)
  let minutes := Int.fdiv millis1 (60 * 1000)
  let millis2 := millis1 - minutes * (60 * 1000)
  let secs := Int.fdiv millis2 1000
  let millis3 := millis2 - secs * 1000
  zeroPad hours 2 ++ ":" ++ zeroPad minutes 2 ++ ":" ++ zeroPad secs 2 ++
    "," ++ zeroPad millis3 3

/-- The function `format_timestamp` (main.py lines 33–42): `HH:MM:SS,mmm`, computed by
rounding `seconds * 1000` to the nearest millisecond (line 35) and
splitting the total (lines 36–42, `tsFromMillis`). -/
def format_timestamp (seconds : ℚ) : String :=
  tsFromMillis (pyRound1000 seconds)

/-- The spec's splitting of the non-negative total milliseconds, in its
own words (spec §4.3: hours, minutes, seconds and milliseconds by integer
floor division and remainder). -/
def tsFromMillisSpec (tms : ℕ) : String :=
  padNat (tms / 3600000) 2 ++ ":" ++ padNat (tms % 3600000 / 60000) 2 ++ ":" ++
    padNat (tms % 60000 / 1000) 2 ++ "," ++ padNat (tms % 1000) 3

/-- The spec's timestamp algorithm, stated in its own words (spec §4.3:
`total_milliseconds = round(seconds × 1000)`; then div/mod splitting on
the non-negative total). Used to check `format_timestamp` against it. -/
def format_timestamp_spec (seconds : ℚ) : String :=
  tsFromMillisSpec (pyRound1000 seconds).toNat

/-! ## Python `float()` on strings

`transcribe_audio_whisper` (main.py lines 98–102) calls `float(duration)`
on a string. We model Python's builtin `float()` on finite decimal
literals: optional surrounding whitespace, an optional sign, a mantissa
`digits [. digits]` (at least one digit overall) and an optional decimal
exponent. Underscore digit separators and the `inf`/`nan` spellings are
not modelled; no claim depends on them. -/

/-- ASCII decimal digit. -/
def isDigitCh (c : Char) : Bool := '0' ≤ c ∧ c ≤ '9'

/-- Value of a string of decimal digits. -/
def digitsVal (l : List Char) : ℕ :=
  l.foldl (fun a c => a * 10 + (c.toNat - 48)) 0

/-- Split a character list at the first `e`/`E` (exponent marker). -/
def splitOnExp : List Char → List Char × Option (List Char)
  | [] => ([], Option.none)
  | c :: cs =>
    if c = 'e' ∨ c = 'E' then ([], Option.some cs)
    else
      let (m, e) := splitOnExp cs
      (c :: m, e)

/-- Parse an unsigned mantissa `digits [. digits]`; returns the digits'
value and the number of fractional digits. -/
def parseMantissa (cs : List Char) : Option (ℕ × ℕ) :=
  let ip := cs.takeWhile isDigitCh
  let rest := cs.dropWhile isDigitCh
  match rest with
  | [] => if ip.isEmpty then Option.none else Option.some (digitsVal ip, 0)
  | '.' :: rest2 =>
    let fp := rest2.takeWhile isDigitCh
    let rest3 := rest2.dropWhile isDigitCh
    if rest3.isEmpty ∧ ¬(ip.isEmpty ∧ fp.isEmpty) then
      Option.some (digitsVal (ip ++ fp), fp.length)
    else Option.none
  | _ => Option.none

/-- Parse a signed decimal exponent. -/
def parseExpPart : List Char → Option ℤ
  | '+' :: ds =>
    if ds ≠ [] ∧ ds.all isDigitCh then Option.some (digitsVal ds) else Option.none
  | '-' :: ds =>
    if ds ≠ [] ∧ ds.all isDigitCh then Option.some (-(digitsVal ds : ℤ)) else Option.none
  | ds =>
    if ds ≠ [] ∧ ds.all isDigitCh then Option.some (digitsVal ds) else Option.none

/-- The rational `sign * m * 10 ^ (e - fracLen)`, built with `mkRat` and
integer arithmetic only (so concrete instances evaluate in the kernel). -/
def ratOfDecimal (sign : ℤ) (m : ℕ) (fracLen : ℕ) (e : ℤ) : ℚ :=
  let k := e - fracLen
  if 0 ≤ k then mkRat (sign * m * 10 ^ k.toNat) 1
  else mkRat (sign * m) (10 ^ (-k).toNat)

/-- Python's builtin `float()` applied to a string, returning `none` where
Python raises `ValueError` (restricted to finite decimal literals, see
above). -/
def pyFloat? (s : String) : Option ℚ :=
  let cs := ((s.toList.dropWhile isPySpace).reverse.dropWhile isPySpace).reverse
  let signAndRest : ℤ × List Char :=
    match cs with
    | '+' :: r => (1, r)
    | '-' :: r => (-1, r)
    | r => (1, r)
  let (mant, expPart) := splitOnExp signAndRest.2
  match parseMantissa mant, expPart with
  | Option.some (m, fl), Option.none => Option.some (ratOfDecimal signAndRest.1 m fl 0)
  | Option.some (m, fl), Option.some es =>
    (parseExpPart es).map (fun e => ratOfDecimal signAndRest.1 m fl e)
  | Option.none, _ => Option.none

/-! ## The transcriber's result normalization (main.py lines 78–106) -/

/-- Lines 78–82: the `segments` field of the raw result when the result is
a dict and the field is a list; `[]` otherwise. -/
def segmentsCandidate (result : PyVal) : List PyVal :=
  match result with
  | PyVal.dict d =>
    match alistGet? d "segments" with
    | Option.some (PyVal.list l) => l
    | _ => []
  | _ => []

/-- Lines 87–92: `result.get("duration", 0.0)` when the result is a dict,
`0.0` otherwise. -/
def rawDuration (result : PyVal) : PyVal :=
  match result with
  | PyVal.dict d => (alistGet? d "duration").getD (PyVal.float 0)
  | _ => PyVal.float 0

/-- Lines 87–92: `result.get("text", "")` when the result is a dict, `""`
otherwise. -/
def rawText (result : PyVal) : PyVal :=
  match result with
  | PyVal.dict d => (alistGet? d "text").getD (PyVal.str "")
  | _ => PyVal.str ""

/-- Lines 94–102: coerce the reported duration to a number: ints and
floats pass through, strings go through `float()` with `ValueError`
mapped to `0.0`, everything else becomes `0.0`. -/
def coerceDuration : PyVal → ℚ
  | PyVal.int n => (n : ℚ)
  | PyVal.float q => q
  | PyVal.str s => (pyFloat? s).getD 0
  | _ => 0

/-- Line 104: the synthetic single segment of the fallback branch. -/
def fallbackSegment (result : PyVal) : PyVal :=
  PyVal.dict [("start", PyVal.float 0),
    ("end", PyVal.float (coerceDuration (rawDuration result))),
    ("text", rawText result)]

/-- Lines 78–106 of `transcribe_audio_whisper`: the normalization of the
raw model result into a segment list (the model invocation itself is
opaque; this is the function's only logic). -/
def transcribe_normalize (result : PyVal) : List PyVal :=
  let sc := segmentsCandidate result
  if sc.isEmpty then [fallbackSegment result] else sc

/-! ## `segments_to_srt` (main.py lines 45–56) -/

/-- Python `seg[key]`: `KeyError` on a dict without the key, `TypeError`
when subscripting a non-dict with a string key. -/
def pyGetItem (seg : PyVal) (key : String) : Except PyErr PyVal :=
  match seg with
  | PyVal.dict d =>
    match alistGet? d key with
    | Option.some v => Except.ok v
    | Option.none => Except.error (PyErr.keyError key)
  | _ => Except.error PyErr.typeError

/-- Python `seg.get(key, dflt)`: `AttributeError` on a non-dict. -/
def pyGetDefault (seg : PyVal) (key : String) (dflt : PyVal) : Except PyErr PyVal :=
  match seg with
  | PyVal.dict d => Except.ok ((alistGet? d key).getD dflt)
  | _ => Except.error PyErr.attributeError

/-- The numeric value demanded by `format_timestamp(...)` (Python raises
`TypeError` inside `round()` for non-numeric arguments). -/
def asNum : PyVal → Except PyErr ℚ
  | PyVal.int n => Except.ok (n : ℚ)
  | PyVal.float q => Except.ok q
  | _ => Except.error PyErr.typeError

/-- Python `v.strip()`: only strings have `strip`; anything else raises
`AttributeError`. -/
def pyStripVal : PyVal → Except PyErr String
  | PyVal.str s => Except.ok (pyStrip s)
  | _ => Except.error PyErr.attributeError

/-- The four lines appended for one segment (main.py lines 49–55), with
the source's evaluation order: `seg["start"]` and its formatting, then
`seg["end"]` and its formatting, then `seg.get("text", "").strip()`. -/
def segBlock (idx : ℕ) (seg : PyVal) : Except PyErr (List String) :=
  match pyGetItem seg "start" with
  | Except.error e => Except.error e
  | Except.ok sv =>
    match asNum sv with
    | Except.error e => Except.error e
    | Except.ok sNum =>
      match pyGetItem seg "end" with
      | Except.error e => Except.error e
      | Except.ok ev =>
        match asNum ev with
        | Except.error e => Except.error e
        | Except.ok eNum =>
          match pyGetDefault seg "text" (PyVal.str "") with
          | Except.error e => Except.error e
          | Except.ok tv =>
            match pyStripVal tv with
            | Except.error e => Except.error e
            | Except.ok text =>
              Except.ok [toString idx,
                format_timestamp sNum ++ " --> " ++ format_timestamp eNum,
                text, ""]

/-- The `lines` list accumulated by the loop of `segments_to_srt`,
starting at index `idx`. -/
def srtLines : ℕ → List PyVal → Except PyErr (List String)
  | _, [] => Except.ok []
  | idx, seg :: rest =>
    match segBlock idx seg with
    | Except.error e => Except.error e
    | Except.ok b =>
      match srtLines (idx + 1) rest with
      | Except.error e => Except.error e
      | Except.ok r => Except.ok (b ++ r)

/-- The function `segments_to_srt` (main.py lines 45–56): the loop over the segments
with `enumerate(segments, start=1)` followed by `"\n".join(lines)`. -/
def segments_to_srt (segments : List PyVal) : Except PyErr String :=
  match srtLines 1 segments with
  | Except.error e => Except.error e
  | Except.ok lines => Except.ok (String.intercalate "\n" lines)

/-- A well-formed segment record (spec §3: start, end, text). `end` is a
Lean keyword, so the field is named `stop`. -/
structure SegRec where
  start : ℚ
  stop : ℚ
  text : String

/-- The Python dict carrying a segment record. -/
def SegRec.toPyDict (r : SegRec) : PyVal :=
  PyVal.dict [("start", PyVal.float r.start), ("end", PyVal.float r.stop),
    ("text", PyVal.str r.text)]

/-- The lines of the claimed rendering (spec §4.3 / claim C2): for the
k-th record, the line `str(k)`, the `start --> end` timestamp line, the
trimmed text, and a blank line. -/
def specBlocks : ℕ → List SegRec → List String
  | _, [] => []
  | k, r :: rest =>
    [toString k, format_timestamp r.start ++ " --> " ++ format_timestamp r.stop,
      pyStrip r.text, ""] ++ specBlocks (k + 1) rest

/-! ## The control flow of `main` (main.py lines 109–151) -/

/-- Outcome of `subprocess.check_call` on the ffmpeg command (main.py
line 26): success, `CalledProcessError` (non-zero exit status), or
`FileNotFoundError` (binary absent). -/
inductive FfmpegOutcome where
  | success : FfmpegOutcome
  | calledProcessError : FfmpegOutcome
  | fileNotFound : FfmpegOutcome
  deriving DecidableEq, Repr

/-- External effects performed by `main`: running the media tool,
invoking the recognition model, writing the output file. -/
inductive Effect where
  | runProcess : List String → Effect
  | callModel : String → String → Effect
  | writeFile : String → String → Effect
  deriving DecidableEq, Repr

/-- How a run of `main` ends: a returned exit code, or a propagated
exception (named by its Python class). -/
inductive RunResult where
  | exit : ℤ → RunResult
  | raised : String → RunResult
  deriving DecidableEq, Repr

/-- The abstract environment a run of `main` interacts with: whether the
input path exists, the temporary directory's name, the ffmpeg outcome,
and the whisper import/load/transcribe outcome (an exception name, or the
raw result). -/
structure Env where
  inputExists : Bool
  tmpdir : String
  ffmpeg : FfmpegOutcome
  whisper : Except String PyVal

/-- The ffmpeg command list built by `run_ffmpeg_extract_audio`
(main.py lines 12–23). -/
def ffmpegCmd (video_path : String) (out_audio : String) : List String :=
  ["ffmpeg", "-y", "-i", video_path, "-ac", "1", "-ar", "16000", "-vn", out_audio]

/-- Exception class name for a `PyErr` propagating out of `main`. -/
def pyErrName : PyErr → String
  | PyErr.keyError _ => "KeyError"
  | PyErr.typeError => "TypeError"
  | PyErr.attributeError => "AttributeError"

/-- Index (from the end) of the last occurrence of `c`. -/
def rfindIdx (cs : List Char) (c : Char) : Option ℕ :=
  ((List.range cs.length).filter (fun i => cs.get? i = Option.some c)).getLast?

/-- Python `os.path.splitext(p)[0]`: drop the extension, i.e. everything from
the last `.` of the final path component, provided some earlier character
of that component is not a `.` (leading dots never start an extension). -/
def splitextRoot (p : String) : String :=
  let cs := p.toList
  let fstart :=
    match rfindIdx cs '/' with
    | Option.some i => i + 1
    | Option.none => 0
  match rfindIdx cs '.' with
  | Option.some d =>
    if fstart ≤ d ∧ ((List.range d).drop fstart).any (fun i => ¬cs.get? i = Option.some '.')
    then String.mk (cs.take d) else p
  | Option.none => p

/-- Model of `main` (main.py lines 126–151) after argument parsing, as a
function of the environment, the input path, the model name, and the
optional output path. Returns how the run ends together with the ordered
trace of external effects. The existence check precedes everything; a
`CalledProcessError` from ffmpeg is caught and mapped to exit code 3; a
missing ffmpeg binary and any whisper failure propagate as exceptions;
otherwise the rendered SRT text is written and 0 is returned. -/
def mainModel (env : Env) (input : String) (modelName : String)
    (output : Option String) : RunResult × List Effect :=
  if env.inputExists = false then (RunResult.exit 2, [])
  else
    let output_srt := output.getD (splitextRoot input ++ ".srt")
    let audio_path := env.tmpdir ++ "/audio.wav"
    let cmd := ffmpegCmd input audio_path
    match env.ffmpeg with
    | FfmpegOutcome.fileNotFound =>
      (RunResult.raised "FileNotFoundError", [Effect.runProcess cmd])
    | FfmpegOutcome.calledProcessError =>
      (RunResult.exit 3, [Effect.runProcess cmd])
    | FfmpegOutcome.success =>
      match env.whisper with
      | Except.error exc =>
        (RunResult.raised exc,
          [Effect.runProcess cmd, Effect.callModel modelName audio_path])
      | Except.ok raw =>
        match segments_to_srt (transcribe_normalize raw) with
        | Except.error e =>
          (RunResult.raised (pyErrName e),
            [Effect.runProcess cmd, Effect.callModel modelName audio_path])
        | Except.ok srt =>
          (RunResult.exit 0,
            [Effect.runProcess cmd, Effect.callModel modelName audio_path,
              Effect.writeFile output_srt srt])

/-- A Python int or float (the values `format_timestamp` accepts). -/
def isNumVal : PyVal → Bool
  | PyVal.int _ => true
  | PyVal.float _ => true
  | _ => false

/-- Holds when `s` is a dict whose field `k` is present with a numeric value. -/
def hasNumKey (s : PyVal) (k : String) : Bool :=
  match s with
  | PyVal.dict d => (alistGet? d k).any isNumVal
  | _ => false

/-- Holds when `s` is a dict whose `text` field, when present, is a string (the
field may be absent; `seg.get("text", "")` then supplies `""`). -/
def textOk (s : PyVal) : Bool :=
  match s with
  | PyVal.dict d =>
    match alistGet? d "text" with
    | Option.none => true
    | Option.some (PyVal.str _) => true
    | Option.some _ => false
  | _ => false

/-! ## Helper lemmas -/

theorem zeroPad_natCast (k w : ℕ) : zeroPad (k : ℤ) w = padNat k w := by
  unfold zeroPad
  rw [if_neg (by omega : ¬((k : ℤ) < 0))]
  simp

theorem roundHalfEven_nonneg {n d : ℤ} (hn : 0 ≤ n) (hd : 0 ≤ d) :
    0 ≤ roundHalfEven n d := by
  have hf : 0 ≤ Int.fdiv n d := Int.fdiv_nonneg hn hd
  unfold roundHalfEven
  dsimp only
  split_ifs <;> omega

theorem pyRound1000_nonneg {q : ℚ} (hq : 0 ≤ q) : 0 ≤ pyRound1000 q := by
  have hnum : 0 ≤ q.num := Rat.num_nonneg.mpr hq
  exact roundHalfEven_nonneg (by omega) (Int.natCast_nonneg _)

theorem tsFromMillis_natCast (t : ℕ) : tsFromMillis (t : ℤ) = tsFromMillisSpec t := by
  unfold tsFromMillis tsFromMillisSpec
  dsimp only
  have h1 : Int.fdiv (t : ℤ) (3600 * 1000) = ((t / 3600000 : ℕ) : ℤ) := by
    rw [Int.fdiv_eq_ediv _ (by norm_num)]; omega
  rw [h1]
  have h2 : (t : ℤ) - ((t / 3600000 : ℕ) : ℤ) * (3600 * 1000) = ((t % 3600000 : ℕ) : ℤ) := by
    omega
  rw [h2]
  have h3 : Int.fdiv ((t % 3600000 : ℕ) : ℤ) (60 * 1000) = ((t % 3600000 / 60000 : ℕ) : ℤ) := by
    rw [Int.fdiv_eq_ediv _ (by norm_num)]; omega
  rw [h3]
  have h4 : ((t % 3600000 : ℕ) : ℤ) - ((t % 3600000 / 60000 : ℕ) : ℤ) * (60 * 1000)
      = ((t % 60000 : ℕ) : ℤ) := by omega
  rw [h4]
  have h5 : Int.fdiv ((t % 60000 : ℕ) : ℤ) 1000 = ((t % 60000 / 1000 : ℕ) : ℤ) := by
    rw [Int.fdiv_eq_ediv _ (by norm_num)]; omega
  rw [h5]
  have h6 : ((t % 60000 : ℕ) : ℤ) - ((t % 60000 / 1000 : ℕ) : ℤ) * 1000
      = ((t % 1000 : ℕ) : ℤ) := by omega
  rw [h6]
  rw [zeroPad_natCast, zeroPad_natCast, zeroPad_natCast, zeroPad_natCast]

/-! ## Claims -/

/-- C1: for every non-negative `s`, `format_timestamp s` follows the
spec's exact algorithm — `round(s * 1000)` to the nearest millisecond,
then hours (unbounded), minutes, seconds and milliseconds by integer
floor division and remainder, zero-padded to 2/2/2/3 digits; in
particular the four example values of the spec hold. -/
theorem format_timestamp_correct :
    (∀ q : ℚ, 0 ≤ q → format_timestamp q = format_timestamp_spec q)
    ∧ format_timestamp (0 : ℚ) = "00:00:00,000"
    ∧ format_timestamp (61.5 : ℚ) = "00:01:01,500"
    ∧ format_timestamp (3661.999 : ℚ) = "01:01:01,999"
    ∧ format_timestamp (90000 : ℚ) = "25:00:00,000" := by
  refine ⟨?_, ?_, ?_, ?_, ?_⟩
  · intro q hq
    have hm : 0 ≤ pyRound1000 q := pyRound1000_nonneg hq
    unfold format_timestamp format_timestamp_spec
    rw [← Int.toNat_of_nonneg hm, tsFromMillis_natCast, Int.toNat_natCast]
  · decide
  · have h : (61.5 : ℚ) = mkRat 123 2 := by rw [Rat.mkRat_eq_div]; norm_num
    rw [h]; decide
  · have h : (3661.999 : ℚ) = mkRat 3661999 1000 := by rw [Rat.mkRat_eq_div]; norm_num
    rw [h]; decide
  · decide

/-- Witness for C1: the refinement applied at `s = 1`. -/
theorem format_timestamp_correct_witness :
    (0 : ℚ) ≤ 1 ∧ format_timestamp 1 = format_timestamp_spec 1 :=
  ⟨by norm_num, format_timestamp_correct.1 1 (by norm_num)⟩

/-- Shared helper: with an unusable `segments` field the normalization
returns the single synthetic segment. -/
theorem normalize_fallback_eq (result : PyVal)
    (h : segmentsCandidate result = []) :
    transcribe_normalize result = [fallbackSegment result] := by
  unfold transcribe_normalize
  dsimp only
  rw [h]
  rfl

/-- C4: the normalization is total (it is a total function of the raw
result in this embedding) and always returns a non-empty list: either the
model's non-empty `segments` list or the single synthetic fallback
segment. -/
theorem transcribe_normalize_total (result : PyVal) :
    transcribe_normalize result ≠ []
    ∧ (transcribe_normalize result = segmentsCandidate result
        ∨ transcribe_normalize result = [fallbackSegment result]) := by
  unfold transcribe_normalize
  dsimp only
  by_cases h : (segmentsCandidate result).isEmpty = true
  · rw [if_pos h]
    exact ⟨by simp, Or.inr rfl⟩
  · rw [if_neg h]
    refine ⟨?_, Or.inl rfl⟩
    intro he
    rw [he] at h
    exact h rfl

/-- C5: whenever the `segments` field is unusable (missing, empty, or not
a list — including a non-dict raw result), the normalization yields
exactly one synthetic segment: start `0.0`, end the coerced duration
(ints and floats as-is, a parseable string parsed, anything else `0.0`),
text the raw result's `text` field (empty if absent or non-dict); in
particular the `duration = "12.3"`, `text = "hi"` scenario renders as a
single block `00:00:00,000 --> 00:00:12,300` with text `hi`. -/
theorem normalize_fallback (result : PyVal)
    (h : segmentsCandidate result = []) :
    transcribe_normalize result =
      [PyVal.dict [("start", PyVal.float 0),
        ("end", PyVal.float (coerceDuration (rawDuration result))),
        ("text", rawText result)]]
    ∧ (∀ n : ℤ, coerceDuration (PyVal.int n) = (n : ℚ))
    ∧ (∀ x : ℚ, coerceDuration (PyVal.float x) = x)
    ∧ (∀ s x, pyFloat? s = Option.some x → coerceDuration (PyVal.str s) = x)
    ∧ (∀ s, pyFloat? s = Option.none → coerceDuration (PyVal.str s) = 0)
    ∧ coerceDuration PyVal.none = 0
    ∧ (∀ l, coerceDuration (PyVal.list l) = 0)
    ∧ (∀ dd, coerceDuration (PyVal.dict dd) = 0)
    ∧ segments_to_srt (transcribe_normalize
        (PyVal.dict [("duration", PyVal.str "12.3"), ("text", PyVal.str "hi")])) =
      Except.ok "1\n00:00:00,000 --> 00:00:12,300\nhi\n" := by
  refine ⟨?_, fun n => rfl, fun x => rfl, ?_, ?_, rfl, fun l => rfl, fun dd => rfl, by decide⟩
  · rw [normalize_fallback_eq result h]
    rfl
  · intro s x hs
    simp only [coerceDuration]
    rw [hs]
    rfl
  · intro s hs
    simp only [coerceDuration]
    rw [hs]
    rfl

/-- Witness for C5: the fallback applied to the non-dict raw result
`None`. -/
theorem normalize_fallback_witness :
    segmentsCandidate PyVal.none = []
    ∧ transcribe_normalize PyVal.none =
      [PyVal.dict [("start", PyVal.float 0), ("end", PyVal.float 0),
        ("text", PyVal.str "")]] :=
  ⟨rfl, (normalize_fallback PyVal.none rfl).1⟩

/-- C6: when the raw result is a dict whose `segments` field is a
non-empty list, the normalization returns that list itself — same
elements, same order, no filtering or modification. -/
theorem normalize_passthrough (d : List (String × PyVal)) (l : List PyVal)
    (hseg : alistGet? d "segments" = Option.some (PyVal.list l)) (hne : l ≠ []) :
    transcribe_normalize (PyVal.dict d) = l := by
  have hc : segmentsCandidate (PyVal.dict d) = l := by
    simp only [segmentsCandidate]
    rw [hseg]
  unfold transcribe_normalize
  dsimp only
  rw [hc, if_neg (by simpa using hne)]

/-- Witness for C6: a one-element `segments` list passes through. -/
theorem normalize_passthrough_witness :
    alistGet? [("segments", PyVal.list [PyVal.int 7])] "segments"
        = Option.some (PyVal.list [PyVal.int 7])
    ∧ transcribe_normalize (PyVal.dict [("segments", PyVal.list [PyVal.int 7])])
        = [PyVal.int 7] :=
  ⟨rfl, normalize_passthrough _ _ rfl (by simp)⟩

/-- C10: the fallback duration coercion performs no sign or range
validation: with an unusable `segments` field, a negative reported
duration passes straight through into the synthesized segment as its end
time (start stays `0.0`, so `end < start`); negative ints, floats and
numeric strings all coerce to negative values. -/
theorem fallback_no_range_validation :
    (∀ (d : List (String × PyVal)) (dv : PyVal),
      segmentsCandidate (PyVal.dict d) = [] →
      alistGet? d "duration" = Option.some dv →
      coerceDuration dv < 0 →
      transcribe_normalize (PyVal.dict d) =
        [PyVal.dict [("start", PyVal.float 0),
          ("end", PyVal.float (coerceDuration dv)),
          ("text", rawText (PyVal.dict d))]])
    ∧ coerceDuration (PyVal.int (-3)) < 0
    ∧ coerceDuration (PyVal.float (mkRat (-5) 2)) < 0
    ∧ coerceDuration (PyVal.str "-2.5") < 0 := by
  refine ⟨?_, by decide, by decide, by decide⟩
  intro d dv hseg hdur _hneg
  have hdv : rawDuration (PyVal.dict d) = dv := by
    simp only [rawDuration]
    rw [hdur]
    rfl
  rw [normalize_fallback_eq _ hseg]
  unfold fallbackSegment
  rw [hdv]

/-- Witness for C10: duration reported as the int `-3`. -/
theorem fallback_no_range_validation_witness :
    segmentsCandidate (PyVal.dict [("duration", PyVal.int (-3))]) = []
    ∧ alistGet? [("duration", PyVal.int (-3))] "duration"
        = Option.some (PyVal.int (-3))
    ∧ coerceDuration (PyVal.int (-3)) < 0
    ∧ transcribe_normalize (PyVal.dict [("duration", PyVal.int (-3))]) =
        [PyVal.dict [("start", PyVal.float 0),
          ("end", PyVal.float (coerceDuration (PyVal.int (-3)))),
          ("text", rawText (PyVal.dict [("duration", PyVal.int (-3))]))]] :=
  ⟨rfl, rfl, by decide,
    fallback_no_range_validation.1 _ _ rfl rfl (by decide)⟩

/-- Shared helper: `segBlock` on a well-formed segment record produces the
four claimed lines. -/
theorem segBlock_toPyDict (k : ℕ) (r : SegRec) :
    segBlock k (SegRec.toPyDict r) =
      Except.ok [toString k,
        format_timestamp r.start ++ " --> " ++ format_timestamp r.stop,
        pyStrip r.text, ""] := rfl

/-- Shared helper: the loop lines over mapped segment records. -/
theorem srtLines_map_toPyDict (segs : List SegRec) :
    ∀ k : ℕ, srtLines k (segs.map SegRec.toPyDict) = Except.ok (specBlocks k segs) := by
  induction segs with
  | nil => intro k; rfl
  | cons r rest ih =>
    intro k
    simp only [List.map_cons, srtLines, segBlock_toPyDict, ih, specBlocks]

/-- Shared helper: each record contributes exactly four lines. -/
theorem specBlocks_length (segs : List SegRec) :
    ∀ k : ℕ, (specBlocks k segs).length = 4 * segs.length := by
  induction segs with
  | nil => intro k; rfl
  | cons r rest ih =>
    intro k
    simp only [specBlocks, List.length_append, List.length_cons, ih, List.length_nil]
    omega

/-- C2: an ordered list of N well-formed segment records renders to
exactly the N numbered blocks in input order (4·N lines in total) — for
the k-th record the line `str(k)`, the `start --> end` timestamp line,
the whitespace-trimmed text, and a blank line — all joined with newline
characters, with no reordering, deduplication or merging. -/
theorem segments_to_srt_blocks (segs : List SegRec)
    (_hwf : ∀ r ∈ segs, 0 ≤ r.start ∧ r.start ≤ r.stop) :
    segments_to_srt (segs.map SegRec.toPyDict)
      = Except.ok (String.intercalate "\n" (specBlocks 1 segs))
    ∧ (specBlocks 1 segs).length = 4 * segs.length := by
  refine ⟨?_, specBlocks_length segs 1⟩
  unfold segments_to_srt
  rw [srtLines_map_toPyDict]

/-- Witness for C2 at a concrete two-record list. -/
theorem segments_to_srt_blocks_witness :
    (∀ r ∈ [SegRec.mk (mkRat 0 1) (mkRat 123 2) " hi ", SegRec.mk (mkRat 123 2) (mkRat 62 1) "x"],
      0 ≤ r.start ∧ r.start ≤ r.stop)
    ∧ segments_to_srt
        ([SegRec.mk (mkRat 0 1) (mkRat 123 2) " hi ",
          SegRec.mk (mkRat 123 2) (mkRat 62 1) "x"].map SegRec.toPyDict)
      = Except.ok (String.intercalate "\n"
          (specBlocks 1 [SegRec.mk (mkRat 0 1) (mkRat 123 2) " hi ",
            SegRec.mk (mkRat 123 2) (mkRat 62 1) "x"]))
      ∧ (specBlocks 1 [SegRec.mk (mkRat 0 1) (mkRat 123 2) " hi ",
          SegRec.mk (mkRat 123 2) (mkRat 62 1) "x"]).length
        = 4 * [SegRec.mk (mkRat 0 1) (mkRat 123 2) " hi ",
            SegRec.mk (mkRat 123 2) (mkRat 62 1) "x"].length := by
  have hwf : ∀ r ∈ [SegRec.mk (mkRat 0 1) (mkRat 123 2) " hi ",
      SegRec.mk (mkRat 123 2) (mkRat 62 1) "x"], 0 ≤ r.start ∧ r.start ≤ r.stop := by
    intro r hr
    rw [List.mem_cons, List.mem_singleton] at hr
    rcases hr with rfl | rfl
    · exact ⟨by decide, by decide⟩
    · exact ⟨by decide, by decide⟩
  exact ⟨hwf, segments_to_srt_blocks _ hwf⟩

/-- C3 counterexample: the single-segment `" hello "` rendering is NOT
the claimed string ending in two newline characters. -/
theorem single_segment_render_counterexample :
    segments_to_srt [PyVal.dict [("start", PyVal.float 0), ("end", PyVal.float 5),
        ("text", PyVal.str " hello ")]]
      ≠ Except.ok "1\n00:00:00,000 --> 00:00:05,000\nhello\n\n" := by decide

/-- C3 (amended): the `" hello "` single-segment run renders exactly
`"1\n00:00:00,000 --> 00:00:05,000\nhello\n"` — one trailing newline,
because `"\n".join` places no separator after the final empty element —
and on the success path `main` writes exactly this text to the output
file. -/
theorem single_segment_render :
    segments_to_srt [PyVal.dict [("start", PyVal.float 0), ("end", PyVal.float 5),
        ("text", PyVal.str " hello ")]]
      = Except.ok "1\n00:00:00,000 --> 00:00:05,000\nhello\n"
    ∧ mainModel
        (Env.mk true "/tmp/x" FfmpegOutcome.success
          (Except.ok (PyVal.dict [("segments",
            PyVal.list [PyVal.dict [("start", PyVal.float 0), ("end", PyVal.float 5),
              ("text", PyVal.str " hello ")]])])))
        "in.mp4" "small" (Option.some "out.srt")
      = (RunResult.exit 0,
          [Effect.runProcess (ffmpegCmd "in.mp4" "/tmp/x/audio.wav"),
            Effect.callModel "small" "/tmp/x/audio.wav",
            Effect.writeFile "out.srt" "1\n00:00:00,000 --> 00:00:05,000\nhello\n"]) :=
  ⟨by decide, by decide⟩

/-- Shared helper: a present numeric field yields a value that `asNum`
accepts. -/
theorem numKeyOkVal {d : List (String × PyVal)} {k : String}
    (h : hasNumKey (PyVal.dict d) k = true) :
    ∃ v q, alistGet? d k = Option.some v ∧ asNum v = Except.ok q := by
  simp only [hasNumKey] at h
  cases hv : alistGet? d k with
  | none => rw [hv] at h; simp [Option.any] at h
  | some v =>
    rw [hv] at h
    simp only [Option.any] at h
    cases v with
    | int n => exact ⟨_, _, rfl, rfl⟩
    | float x => exact ⟨_, _, rfl, rfl⟩
    | none => simp [isNumVal] at h
    | str s => simp [isNumVal] at h
    | list l => simp [isNumVal] at h
    | dict dd => simp [isNumVal] at h

/-- Shared helper: a segment with numeric `start` and `end` and an
absent-or-string `text` renders to some block. -/
theorem segBlock_ok (k : ℕ) (s : PyVal)
    (h1 : hasNumKey s "start" = true) (h2 : hasNumKey s "end" = true)
    (h3 : textOk s = true) : ∃ b, segBlock k s = Except.ok b := by
  cases s with
  | dict d =>
    obtain ⟨sv, sq, hsv, hsq⟩ := numKeyOkVal h1
    obtain ⟨ev, eq2, hev, heq⟩ := numKeyOkVal h2
    have hg1 : pyGetItem (PyVal.dict d) "start" = Except.ok sv := by
      simp only [pyGetItem]; rw [hsv]
    have hg2 : pyGetItem (PyVal.dict d) "end" = Except.ok ev := by
      simp only [pyGetItem]; rw [hev]
    simp only [textOk] at h3
    obtain ⟨t, ht⟩ : ∃ t, pyStripVal ((alistGet? d "text").getD (PyVal.str ""))
        = Except.ok t := by
      cases htx : alistGet? d "text" with
      | none => exact ⟨_, rfl⟩
      | some v =>
        rw [htx] at h3
        cases v with
        | str u => exact ⟨_, rfl⟩
        | none => simp at h3
        | int n => simp at h3
        | float x => simp at h3
        | list l => simp at h3
        | dict dd => simp at h3
    have hg3 : pyGetDefault (PyVal.dict d) "text" (PyVal.str "")
        = Except.ok ((alistGet? d "text").getD (PyVal.str "")) := rfl
    refine ⟨[toString k, format_timestamp sq ++ " --> " ++ format_timestamp eq2, t, ""], ?_⟩
    simp only [segBlock, hg1, hsq, hg2, heq, hg3, ht]
  | none => simp [hasNumKey] at h1
  | int n => simp [hasNumKey] at h1
  | float x => simp [hasNumKey] at h1
  | str u => simp [hasNumKey] at h1
  | list l => simp [hasNumKey] at h1

/-- Shared helper: the loop succeeds on a list of such segments. -/
theorem srtLines_ok (segs : List PyVal)
    (h : ∀ s ∈ segs, hasNumKey s "start" = true ∧ hasNumKey s "end" = true
      ∧ textOk s = true) :
    ∀ k : ℕ, ∃ ls, srtLines k segs = Except.ok ls := by
  induction segs with
  | nil => intro k; exact ⟨[], rfl⟩
  | cons s rest ih =>
    intro k
    obtain ⟨hs1, hs2, hs3⟩ := h s (by simp)
    obtain ⟨b, hb⟩ := segBlock_ok k s hs1 hs2 hs3
    obtain ⟨r, hr⟩ := ih (fun x hx => h x (by simp [hx])) (k + 1)
    refine ⟨b ++ r, ?_⟩
    simp only [srtLines, hb, hr]

/-- C9 counterexample: a segment list whose single element has numeric
`start` and `end` keys (with `text` present as a non-string) on which
rendering raises, refuting "rendering succeeds whether or not `text` is
present". -/
theorem render_text_counterexample :
    hasNumKey (PyVal.dict [("start", PyVal.int 0), ("end", PyVal.int 1),
        ("text", PyVal.int 5)]) "start" = true
    ∧ hasNumKey (PyVal.dict [("start", PyVal.int 0), ("end", PyVal.int 1),
        ("text", PyVal.int 5)]) "end" = true
    ∧ segments_to_srt [PyVal.dict [("start", PyVal.int 0), ("end", PyVal.int 1),
        ("text", PyVal.int 5)]]
      = Except.error PyErr.attributeError := by decide

/-- C9 (amended): rendering succeeds for every segment list whose
elements carry numeric `start` and `end` keys and whose `text`, when
present, is a string (text may be absent — `seg.get("text", "")` supplies
the empty string); a segment lacking `start`, or lacking `end`, raises a
key-lookup error naming the missing key. -/
theorem render_requires_start_end :
    (∀ segs : List PyVal,
      (∀ s ∈ segs, hasNumKey s "start" = true ∧ hasNumKey s "end" = true
        ∧ textOk s = true) →
      ∃ out, segments_to_srt segs = Except.ok out)
    ∧ segments_to_srt [PyVal.dict [("end", PyVal.float 1)]]
        = Except.error (PyErr.keyError "start")
    ∧ segments_to_srt [PyVal.dict [("start", PyVal.float 0)]]
        = Except.error (PyErr.keyError "end") := by
  refine ⟨?_, by decide, by decide⟩
  intro segs h
  obtain ⟨ls, hls⟩ := srtLines_ok segs h 1
  refine ⟨String.intercalate "\n" ls, ?_⟩
  simp only [segments_to_srt, hls]

/-- Witness for C9: a segment with numeric keys and no `text` field
renders successfully. -/
theorem render_requires_start_end_witness :
    (∀ s ∈ [PyVal.dict [("start", PyVal.int 0), ("end", PyVal.int 1)]],
      hasNumKey s "start" = true ∧ hasNumKey s "end" = true ∧ textOk s = true)
    ∧ ∃ out, segments_to_srt [PyVal.dict [("start", PyVal.int 0), ("end", PyVal.int 1)]]
        = Except.ok out := by
  have hall : ∀ s ∈ [PyVal.dict [("start", PyVal.int 0), ("end", PyVal.int 1)]],
      hasNumKey s "start" = true ∧ hasNumKey s "end" = true ∧ textOk s = true := by
    intro s hs
    rw [List.mem_singleton] at hs
    subst hs
    exact ⟨rfl, rfl, rfl⟩
  exact ⟨hall, render_requires_start_end.1 _ hall⟩

/-- C7: `main` returns exit code 2 when the input path does not exist,
performing no external calls and writing nothing; it returns 3 when the
audio-extraction process exits with non-zero status; it returns 0 on
success after writing the subtitle file; a missing media tool and any
whisper failure propagate as exceptions rather than returned codes. -/
theorem main_exit_codes :
    (∀ (env : Env) (input m : String) (out : Option String),
      env.inputExists = false →
      mainModel env input m out = (RunResult.exit 2, []))
    ∧ (∀ (env : Env) (input m : String) (out : Option String),
      env.inputExists = true → env.ffmpeg = FfmpegOutcome.calledProcessError →
      mainModel env input m out =
        (RunResult.exit 3,
          [Effect.runProcess (ffmpegCmd input (env.tmpdir ++ "/audio.wav"))]))
    ∧ (∀ (env : Env) (input m : String) (out : Option String) (raw : PyVal) (srt : String),
      env.inputExists = true → env.ffmpeg = FfmpegOutcome.success →
      env.whisper = Except.ok raw →
      segments_to_srt (transcribe_normalize raw) = Except.ok srt →
      mainModel env input m out =
        (RunResult.exit 0,
          [Effect.runProcess (ffmpegCmd input (env.tmpdir ++ "/audio.wav")),
            Effect.callModel m (env.tmpdir ++ "/audio.wav"),
            Effect.writeFile (out.getD (splitextRoot input ++ ".srt")) srt]))
    ∧ (∀ (env : Env) (input m : String) (out : Option String),
      env.inputExists = true → env.ffmpeg = FfmpegOutcome.fileNotFound →
      (mainModel env input m out).1 = RunResult.raised "FileNotFoundError")
    ∧ (∀ (env : Env) (input m : String) (out : Option String) (exc : String),
      env.inputExists = true → env.ffmpeg = FfmpegOutcome.success →
      env.whisper = Except.error exc →
      (mainModel env input m out).1 = RunResult.raised exc) := by
  refine ⟨?_, ?_, ?_, ?_, ?_⟩
  · intro env input m out h
    unfold mainModel
    rw [h]
    rfl
  · intro env input m out h1 h2
    unfold mainModel
    rw [h1, h2]
    rfl
  · intro env input m out raw srt h1 h2 h3 h4
    unfold mainModel
    rw [h1, h2, h3]
    dsimp only
    rw [h4]
    rfl
  · intro env input m out h1 h2
    unfold mainModel
    rw [h1, h2]
    rfl
  · intro env input m out exc h1 h2 h3
    unfold mainModel
    rw [h1, h2, h3]
    rfl

/-- Witness for C7: each branch of `main` exercised at a concrete
environment — missing input, ffmpeg failure, full success, missing
ffmpeg binary, and a whisper import error. -/
theorem main_exit_codes_witness :
    mainModel (Env.mk false "/t" FfmpegOutcome.success (Except.error "ImportError"))
        "in.mp4" "small" Option.none = (RunResult.exit 2, [])
    ∧ mainModel (Env.mk true "/t" FfmpegOutcome.calledProcessError
          (Except.error "ImportError")) "in.mp4" "small" Option.none
        = (RunResult.exit 3, [Effect.runProcess (ffmpegCmd "in.mp4" "/t/audio.wav")])
    ∧ mainModel (Env.mk true "/t" FfmpegOutcome.success (Except.ok PyVal.none))
          "in.mp4" "small" Option.none
        = (RunResult.exit 0,
            [Effect.runProcess (ffmpegCmd "in.mp4" "/t/audio.wav"),
              Effect.callModel "small" "/t/audio.wav",
              Effect.writeFile "in.srt" "1\n00:00:00,000 --> 00:00:00,000\n\n"])
    ∧ (mainModel (Env.mk true "/t" FfmpegOutcome.fileNotFound (Except.error "ImportError"))
          "in.mp4" "small" Option.none).1 = RunResult.raised "FileNotFoundError"
    ∧ (mainModel (Env.mk true "/t" FfmpegOutcome.success (Except.error "ImportError"))
          "in.mp4" "small" Option.none).1 = RunResult.raised "ImportError" := by
  refine ⟨main_exit_codes.1 _ _ _ _ rfl, main_exit_codes.2.1 _ _ _ _ rfl rfl, ?_, ?_, ?_⟩
  · have h := main_exit_codes.2.2.1 (Env.mk true "/t" FfmpegOutcome.success
      (Except.ok PyVal.none)) "in.mp4" "small" Option.none PyVal.none
      "1\n00:00:00,000 --> 00:00:00,000\n\n" rfl rfl rfl (by decide)
    exact h
  · exact main_exit_codes.2.2.2.1 _ _ _ _ rfl rfl
  · exact main_exit_codes.2.2.2.2 _ _ _ _ _ rfl rfl rfl

/-- C8: the audio extractor's command is exactly
`ffmpeg -y -i <video> -ac 1 -ar 16000 -vn <audio>` (main.py lines 12–23),
and whenever `main` gets past the existence check its first external
effect is exactly that invocation on the input path and the temporary
audio path. -/
theorem ffmpeg_invocation :
    (∀ v a : String, ffmpegCmd v a
      = ["ffmpeg", "-y", "-i", v, "-ac", "1", "-ar", "16000", "-vn", a])
    ∧ (∀ (env : Env) (input m : String) (out : Option String),
      env.inputExists = true →
      ∃ rest, (mainModel env input m out).2
        = Effect.runProcess ["ffmpeg", "-y", "-i", input, "-ac", "1", "-ar", "16000",
            "-vn", env.tmpdir ++ "/audio.wav"] :: rest) := by
  refine ⟨fun v a => rfl, ?_⟩
  intro env input m out h
  unfold mainModel
  rw [h]
  dsimp only
  cases hf : env.ffmpeg with
  | fileNotFound => exact ⟨_, rfl⟩
  | calledProcessError => exact ⟨_, rfl⟩
  | success =>
    cases hw : env.whisper with
    | error exc => exact ⟨_, rfl⟩
    | ok raw =>
      cases hs : segments_to_srt (transcribe_normalize raw) with
      | error e => exact ⟨[Effect.callModel m (env.tmpdir ++ "/audio.wav")], by
          dsimp only
          rw [hs]
          rfl⟩
      | ok srt => exact ⟨[Effect.callModel m (env.tmpdir ++ "/audio.wav"),
          Effect.writeFile (out.getD (splitextRoot input ++ ".srt")) srt], by
          dsimp only
          rw [hs]
          rfl⟩

/-- Witness for C8: the first effect of a run that fails in ffmpeg. -/
theorem ffmpeg_invocation_witness :
    ∃ rest, (mainModel (Env.mk true "/t" FfmpegOutcome.calledProcessError
        (Except.error "x")) "v.mp4" "small" Option.none).2
      = Effect.runProcess ["ffmpeg", "-y", "-i", "v.mp4", "-ac", "1", "-ar", "16000",
          "-vn", "/t" ++ "/audio.wav"] :: rest :=
  ffmpeg_invocation.2 _ _ _ _ rfl

/-- Validation of the rounding model: `pyRound1000 q` is within `1/2` of
the exact value `q * 1000`, i.e. it rounds to a nearest integer. -/
theorem pyRound1000_close (q : ℚ) : |((pyRound1000 q : ℤ) : ℚ) - q * 1000| ≤ 1/2 := by
  have hd : (0 : ℤ) < (q.den : ℤ) := by exact_mod_cast q.den_pos
  have hq1000 : q * 1000 = ((1000 * q.num : ℤ) : ℚ) / (((q.den : ℤ) : ℤ) : ℚ) := by
    push_cast
    rw [mul_div_assoc, Rat.num_div_den]
    ring
  unfold pyRound1000 roundHalfEven
  dsimp only
  rw [hq1000]
  set n : ℤ := 1000 * q.num with hn
  set d : ℤ := (q.den : ℤ) with hdd
  have hfd : Int.fdiv n d = n / d := Int.fdiv_eq_ediv n (le_of_lt hd)
  rw [hfd]
  set f : ℤ := n / d with hf
  have hnfm : n - f * d = n % d := by rw [Int.emod_def, hf]; ring
  rw [hnfm]
  set m : ℤ := n % d with hm
  have hm0 : 0 ≤ m := Int.emod_nonneg n (by omega)
  have hmd : m < d := Int.emod_lt_of_pos n hd
  have hfm : n = f * d + m := by rw [hm, Int.emod_def, hf]; ring
  have hdQ : (0 : ℚ) < (d : ℚ) := by exact_mod_cast hd
  have hnQ : (n : ℚ) = (f : ℚ) * (d : ℚ) + (m : ℚ) := by exact_mod_cast hfm
  have hnd : (n : ℚ) / (d : ℚ) = (f : ℚ) + (m : ℚ) / (d : ℚ) := by
    rw [hnQ, add_div, mul_div_cancel_right₀ _ (ne_of_gt hdQ)]
  rw [hnd]
  have hm0Q : 0 ≤ (m : ℚ) / (d : ℚ) :=
    div_nonneg (by exact_mod_cast hm0) (le_of_lt hdQ)
  split_ifs with h1 h2 h3
  · have h1Q : 2 * (m : ℚ) < (d : ℚ) := by exact_mod_cast h1
    have hlt : (m : ℚ) / (d : ℚ) < 1 / 2 := by rw [div_lt_iff₀ hdQ]; linarith
    rw [abs_le]
    constructor <;> linarith
  · have h2Q : (d : ℚ) < 2 * (m : ℚ) := by exact_mod_cast h2
    have hge : 1 / 2 ≤ (m : ℚ) / (d : ℚ) := by rw [le_div_iff₀ hdQ]; linarith
    have hmdQ : (m : ℚ) / (d : ℚ) < 1 := by
      rw [div_lt_one hdQ]; exact_mod_cast hmd
    rw [abs_le]
    constructor <;> push_cast <;> linarith
  · have heq : (d : ℚ) = 2 * (m : ℚ) := by exact_mod_cast (by omega : d = 2 * m)
    have hhalf : (m : ℚ) / (d : ℚ) = 1 / 2 := by
      rw [heq, div_eq_iff (by linarith : 2 * (m : ℚ) ≠ 0)]
      ring
    rw [abs_le]
    constructor <;> linarith
  · have heq : (d : ℚ) = 2 * (m : ℚ) := by exact_mod_cast (by omega : d = 2 * m)
    have hhalf : (m : ℚ) / (d : ℚ) = 1 / 2 := by
      rw [heq, div_eq_iff (by linarith : 2 * (m : ℚ) ≠ 0)]
      ring
    rw [abs_le]
    constructor <;> push_cast <;> linarith

/-- Banker's rounding at exact millisecond ties, as Python's `round()`:
half a millisecond rounds to the even neighbour. -/
theorem pyRound1000_ties :
    pyRound1000 (mkRat 1 2000) = 0 ∧ pyRound1000 (mkRat 3 2000) = 2 := by decide
